import Mathlib

/-!
# agent-js-worker: command dispatch and session lifecycle

A shallow embedding of `cmd/agent-js-worker/main.go`.

* Go strings and byte buffers are Lean strings; a Go `error` is its message.
* A Go `map[string]T` is an association list with at most one entry per key once built
  through `GoMap.set`; `GoMap.get` is the lookup `m[k]` and `GoMap.set` the store `m[k] = v`.
* The closures stored in the handler table are defunctionalised: a `Handler` names the
  closure and carries what it captured; `Handler.call` is its body.
* Everything outside the repository (option decoding, logging, storage, the framework,
  the handler providers, JSON) is an outcome supplied by an `Env`, one per processed command,
  so two commands may see different outcomes of the same external call.
* The order in which a `range` visits a map is such an outcome too: any permutation of the
  entries.
* One processed command is one step: `worker` maps a handler table and a command to the
  emitted result and the handler table afterwards.
-/

namespace AgentJsWorker

/-! ## Constants -/

def commandPkg : String := "agent"
def startFn : String := "Start"
def stopFn : String := "Stop"
def workers : Nat := 2
def storageTypeIndexedDB : String := "indexedDB"
def storageTypeSDS : String := "sds"

/-- The format `invalidStorageTypeErrMsg` applied to its one `%s` argument. -/
def invalidStorageTypeErrMsg (storageType : String) : String :=
  storageType ++ (" is not a valid storage type. " ++
    "Valid storage types: " ++ storageTypeSDS ++ ", " ++ storageTypeIndexedDB)

/-! ## Go maps -/

/-- A Go map with string keys. -/
abbrev GoMap (β : Type) := List (String × β)

/-- The lookup `v, ok := m[k]`. -/
def GoMap.get {β : Type} : GoMap β → String → Option β
  | [], _ => none
  | (k, v) :: rest, key => if k = key then some v else GoMap.get rest key

/-- The store `m[k] = v`: overwrite the entry of `k`, or add one. -/
def GoMap.set {β : Type} : GoMap β → String → β → GoMap β
  | [], key, val => [(key, val)]
  | (k, v) :: rest, key, val =>
    if k = key then (key, val) :: rest else (k, v) :: GoMap.set rest key val

/-! ## Envelopes -/

/-- A decoded JSON value, as held in a Go `interface{}`. -/
inductive JSONValue where
  | null
  | bool (b : Bool)
  | number (n : Int)
  | str (s : String)
  | arr (items : List JSONValue)
  | obj (fields : List (String × JSONValue))

/-- A Go `map[string]interface{}`; `none` is the nil map. -/
abbrev PayloadMap := Option (List (String × JSONValue))

/-- A payload map stored as an `interface{}` value. -/
def JSONValue.ofPayload : PayloadMap → JSONValue
  | none => JSONValue.null
  | some fields => JSONValue.obj fields

/-- Command received from JS. -/
structure command where
  ID : String
  Pkg : String
  Fn : String
  Payload : PayloadMap

/-- Result sent back to JS. -/
structure result where
  ID : String
  IsErr : Bool := false
  ErrMsg : String := ""
  Payload : PayloadMap := none
  Topic : String := ""

/-- Options for starting the agent. -/
structure agentStartOpts where
  Label : String := ""
  HTTPResolvers : List String := []
  AutoAccept : Bool := false
  OutboundTransport : List String := []
  TransportReturnRoute : String := ""
  LogLevel : String := ""
  StorageType : String := ""
  IndexedDBNamespace : String := ""
  SDSServerURL : String := ""
  SDSVaultID : String := ""
  BlocDomain : String := ""
  TrustblocResolver : String := ""

def newErrResult (id msg : String) : result :=
  { ID := id, IsErr := true, ErrMsg := "agent wasm: " ++ msg }

def isStartCommand (c : command) : Bool :=
  c.Pkg == commandPkg && c.Fn == startFn

def isStopCommand (c : command) : Bool :=
  c.Pkg == commandPkg && c.Fn == stopFn

def handlerNotFoundErr (c : command) : result :=
  if isStartCommand c then
    newErrResult c.ID "Agent already started"
  else if isStopCommand c then
    newErrResult c.ID "Agent not running"
  else
    newErrResult c.ID ("invalid pkg/fn: " ++ c.Pkg ++ "/" ++ c.Fn ++ ", make sure agent is started")

/-! ## External objects

Values built by libraries outside the repository are records of the arguments they were built
from; objects with identity (the framework instance, its context, a provider's handler) are
handles. -/

/-- A storage provider. -/
inductive StorageProvider where
  | edv (edvServerURL vaultID : String)
  | indexedDB (namespaceName : String)
  deriving DecidableEq

/-- A VDR: an HTTP binding resolver with the method set its accept function tests, or the
trustbloc VDR. -/
inductive VDR where
  | httpbinding (url : String) (methods : GoMap Unit)
  | trustbloc (domain resolverURL : String)
  deriving DecidableEq

/-- The accept function given to `httpbinding.New`: `_, ok := methods[method]`. -/
def VDR.accept : VDR → String → Bool
  | VDR.httpbinding _ methods, method => (GoMap.get methods method).isSome
  | VDR.trustbloc _ _, _ => false

/-- An outbound transport. -/
inductive OutboundTransport where
  | http
  | ws
  deriving DecidableEq

/-- A framework option. A nil VDR slot is `none`. -/
inductive AriesOption where
  | withMessageServiceProvider
  | withTransportReturnRoute (route : String)
  | withVDR (v : Option VDR)
  | withStoreProvider (store : StorageProvider)
  | withOutboundTransports (t : OutboundTransport)
  deriving DecidableEq

/-- The framework instance returned by `aries.New`. -/
structure Aries where
  handle : Nat
  deriving DecidableEq

/-- The provider returned by `a.Context()`. -/
structure Provider where
  handle : Nat
  deriving DecidableEq

/-- A handler as a provider exposes it: `Name()`, `Method()` and `Handle()`. -/
structure ProviderHandler where
  name : String
  method : String
  handle : Nat
  deriving DecidableEq

/-- The outcomes of the calls that leave the repository while one command is processed. An
error outcome is `Except.error msg`, or `some msg` where the call returns only an error. -/
structure Env where
  /-- The mapstructure decoding of the payload in `startOpts`. -/
  decode : PayloadMap → Except String agentStartOpts
  /-- Does `log.ParseLevel`. -/
  parseLevel : String → Option String
  /-- Does `keyset.NewHandle(mac.HMACSHA256Tag256KeyTemplate())`. -/
  newHMACKeyHandle : Option String
  /-- Does `tinkcrypto.New()`. -/
  tinkcryptoNew : Option String
  /-- Does `edv.NewRESTProvider`. -/
  newRESTProvider : String → String → Option String
  /-- Does `keyset.NewHandle(ecdh.ECDH256KWAES256GCMKeyTemplate())`. -/
  newECDHKeyHandle : Option String
  /-- Does `keyHandle.Public()`. -/
  publicKeyHandle : Option String
  /-- Does `pubKH.WriteWithNoSecrets`. -/
  writeWithNoSecrets : Option String
  /-- Does `json.Unmarshal` of the written key set. -/
  unmarshalPublicKey : Option String
  /-- Does `jsindexeddb.NewProvider`. -/
  newIndexedDBProvider : String → Option String
  /-- Does `httpbinding.New`. -/
  httpbindingNew : String → GoMap Unit → Option String
  /-- Does `arieshttp.NewOutbound`. -/
  newHTTPOutbound : Option String
  /-- Does `aries.New`. -/
  ariesNew : List AriesOption → Except String Aries
  /-- Does `a.Context()`. -/
  context : Aries → Except String Provider
  /-- Does `ariesctrl.GetCommandHandlers`, given the context and the default label. -/
  ariesHandlers : Provider → String → Except String (List ProviderHandler)
  /-- Does `agentctrl.GetCommandHandlers`, given the context and the bloc domain. -/
  agentHandlers : Provider → String → Except String (List ProviderHandler)
  /-- Does `a.Close()`. -/
  close : Aries → Option String
  /-- Does `json.Marshal(c.Payload)`. -/
  marshal : PayloadMap → Except String String
  /-- Does `json.Unmarshal` of a handler's output into the empty payload map: the map
  afterwards, which is the nil map when the output is the JSON null. -/
  unmarshal : String → Except String PayloadMap
  /-- The order in which `for url := range set` visits the entries of `set`, which Go leaves
  unspecified: some permutation of them. -/
  rangeOrder : (set : GoMap (GoMap Unit)) → { visited : GoMap (GoMap Unit) // visited.Perm set }
  /-- A provider handler's `Handle()` applied to the request: what it wrote, and its
  `command.Error` (code and message) if it failed. -/
  handle : Nat → String → String × Option (Int × String)

/-! ## Building a session -/

def startOpts (env : Env) (payload : PayloadMap) : Except String agentStartOpts :=
  env.decode payload

/-- The log level itself is global state outside the handler table and is not tracked. -/
def setLogLevel (env : Env) (logLevel : String) : Option String :=
  if logLevel ≠ "" then
    match env.parseLevel logLevel with
    | some err => some err
    | none => none
  else
    none

def newMACCrypto (env : Env) : Option String :=
  match env.newHMACKeyHandle with
  | some err => some ("failed to create new HMAC key handle: " ++ err)
  | none =>
    match env.tinkcryptoNew with
    | some err => some ("failed to create new tink crypto: " ++ err)
    | none => none

def createEncrypterAndDecrypter (env : Env) : Option String :=
  match env.newECDHKeyHandle with
  | some err => some ("failed to create new ECDHES key handle: " ++ err)
  | none =>
    match env.publicKeyHandle with
    | some err => some ("failed to get public key handle from ECDHES key handle: " ++ err)
    | none =>
      match env.writeWithNoSecrets with
      | some err => some ("failed to write keyset: " ++ err)
      | none =>
        match env.unmarshalPublicKey with
        | some err => some ("failed to unmarshal bytes to a public key: " ++ err)
        | none => none

def createEncryptedFormatter (env : Env) : Option String :=
  match createEncrypterAndDecrypter env with
  | some err => some ("failed to create encrypter and decrypter: " ++ err)
  | none => none

def createEDVProvider (env : Env) (edvServerURL vaultID : String) :
    Except String StorageProvider :=
  match newMACCrypto env with
  | some err => Except.error ("failed to create new MAC Crypto for EDV REST provider: " ++ err)
  | none =>
    match env.newRESTProvider edvServerURL vaultID with
    | some err => Except.error ("failed to create new EDV REST provider: " ++ err)
    | none =>
      match createEncryptedFormatter env with
      | some err => Except.error ("failed to create new encrypted formatter: " ++ err)
      | none => Except.ok (StorageProvider.edv edvServerURL vaultID)

def createStore (env : Env) (opts : agentStartOpts) : Except String StorageProvider :=
  if opts.StorageType = storageTypeSDS then
    match createEDVProvider env opts.SDSServerURL opts.SDSVaultID with
    | Except.error err => Except.error ("failed to create EDV provider: " ++ err)
    | Except.ok store => Except.ok store
  else if opts.StorageType = storageTypeIndexedDB then
    match env.newIndexedDBProvider opts.IndexedDBNamespace with
    | some err => Except.error err
    | none => Except.ok (StorageProvider.indexedDB opts.IndexedDBNamespace)
  else
    Except.error (invalidStorageTypeErrMsg opts.StorageType)

/-- The pieces of a character list between the occurrences of `sep`. -/
def splitChars (sep : Char) : List Char → List (List Char)
  | [] => [[]]
  | c :: cs =>
    if c = sep then [] :: splitChars sep cs
    else
      match splitChars sep cs with
      | [] => [[c]]
      | piece :: pieces => (c :: piece) :: pieces

/-- Go: `strings.Split(s, sep)` for a one-character separator. -/
def stringsSplit (s : String) (sep : Char) : List String :=
  (splitChars sep s.data).map String.mk

def numPartsResolverOption : Nat := 2

/-- The first loop of `createVDRs`: `set` maps a resolver URL to its methods, `order` maps a
URL to an index, `idx` is the running index. -/
def createVDRs.collect : List String → GoMap (GoMap Unit) → GoMap Int → Int →
    Except String (GoMap (GoMap Unit) × GoMap Int)
  | [], set, order, _ => Except.ok (set, order)
  | resolver :: rest, set, order, idx =>
    let r := stringsSplit resolver '@'
    if r.length ≠ numPartsResolverOption then
      Except.error ("invalid http resolver options found: " ++ resolver)
    else
      let r0 := r.getD 0 ""
      let r1 := r.getD 1 ""
      let fresh := (GoMap.get set r1).isNone
      let set := if fresh then GoMap.set set r1 [] else set
      let idx := if fresh then idx + 1 else idx
      let order := GoMap.set order r1 idx
      let set := GoMap.set set r1 (GoMap.set ((GoMap.get set r1).getD []) r0 ())
      createVDRs.collect rest set order idx

/-- The second loop of `createVDRs`, over the entries of `set` in the order the range visits
them: build the resolver of each URL and store it at `VDRs[order[url]]`, an index within
bounds by `createVDRs_index_in_range`. -/
def createVDRs.build (env : Env) (order : GoMap Int) :
    List (String × GoMap Unit) → List (Option VDR) → Except String (List (Option VDR))
  | [], VDRs => Except.ok VDRs
  | (url, methods) :: rest, VDRs =>
    match env.httpbindingNew url methods with
    | some err => Except.error ("failed to create new universal resolver vdr: " ++ err)
    | none =>
      createVDRs.build env order rest
        (VDRs.set ((GoMap.get order url).getD 0).toNat (some (VDR.httpbinding url methods)))

def createVDRs (env : Env) (resolvers : List String)
    (trustblocDomain trustblocResolver : String) : Except String (List (Option VDR)) :=
  match createVDRs.collect resolvers [] [] (-1) with
  | Except.error err => Except.error err
  | Except.ok (set, order) =>
    match createVDRs.build env order (env.rangeOrder set).val
        (List.replicate set.length none) with
    | Except.error err => Except.error err
    | Except.ok VDRs =>
      Except.ok (VDRs ++ [some (VDR.trustbloc trustblocDomain trustblocResolver)])

/-- The loop of `agentOpts` over the outbound transports. -/
def agentOpts.transports (env : Env) :
    List String → List AriesOption → Except String (List AriesOption)
  | [], options => Except.ok options
  | transport :: rest, options =>
    if transport = "http" then
      match env.newHTTPOutbound with
      | some err => Except.error err
      | none =>
        agentOpts.transports env rest
          (options ++ [AriesOption.withOutboundTransports OutboundTransport.http])
    else if transport = "ws" then
      agentOpts.transports env rest
        (options ++ [AriesOption.withOutboundTransports OutboundTransport.ws])
    else
      Except.error ("unsupported transport : " ++ transport)

def agentOpts (env : Env) (opts : agentStartOpts) : Except String (List AriesOption) :=
  let options := [AriesOption.withMessageServiceProvider]
  let options :=
    if opts.TransportReturnRoute ≠ "" then
      options ++ [AriesOption.withTransportReturnRoute opts.TransportReturnRoute]
    else options
  match createStore env opts with
  | Except.error err => Except.error ("failed to create storage provider: " ++ err)
  | Except.ok store =>
    match createVDRs env opts.HTTPResolvers opts.BlocDomain opts.TrustblocResolver with
    | Except.error err => Except.error err
    | Except.ok VDRs =>
      let options := options ++ VDRs.map AriesOption.withVDR
      let options := options ++ [AriesOption.withStoreProvider store]
      agentOpts.transports env opts.OutboundTransport options

/-! ## Handlers -/

/-- The closure built in `getAriesHandlers` and `getAgentHandlers` around a provider
handler's `handle`. -/
structure execFn where
  handle : Nat
  deriving DecidableEq

/-- The body of that closure: the output buffer, or the formatted error. -/
def execFn.run (env : Env) (exec : execFn) (req : String) : Except String String :=
  match env.handle exec.handle req with
  | (_, some (code, msg)) =>
    Except.error ("code: " ++ toString code ++ ", message: " ++ msg)
  | (buf, none) => Except.ok buf

structure commandHandler where
  name : String
  method : String
  exec : execFn
  deriving DecidableEq

/-- A `func(*command) *result` stored in the handler table, with what it captured. -/
inductive Handler where
  /-- The `echo` closure of `testHandlers`. -/
  | testEcho
  /-- The `throwError` closure of `testHandlers`. -/
  | testThrowError
  /-- The `timeout` closure of `testHandlers`. -/
  | testTimeout
  /-- The closure `addAgentHandlers` stores under `Start`. -/
  | start
  /-- The closure `addStopAgentHandler` stores under `Stop`, capturing `a`. -/
  | stop (a : Aries)
  /-- The closure `cmdExecToFn exec` returns. -/
  | cmdExec (exec : execFn)
  deriving DecidableEq

/-- The handler table `map[string]map[string]func(*command) *result`. -/
abbrev PkgMap := GoMap (GoMap Handler)

def testHandlers : PkgMap :=
  [("test", [("echo", Handler.testEcho), ("throwError", Handler.testThrowError),
    ("timeout", Handler.testTimeout)])]

def getAriesHandlers (env : Env) (ctx : Provider) (opts : agentStartOpts) :
    Except String (List commandHandler) :=
  match env.ariesHandlers ctx opts.Label with
  | Except.error err => Except.error err
  | Except.ok handlers =>
    Except.ok (handlers.map fun h =>
      { name := h.name, method := h.method, exec := { handle := h.handle } })

def getAgentHandlers (env : Env) (ctx : Provider) (opts : agentStartOpts) :
    Except String (List commandHandler) :=
  match env.agentHandlers ctx opts.BlocDomain with
  | Except.error err => Except.error err
  | Except.ok handlers =>
    Except.ok (handlers.map fun h =>
      { name := h.name, method := h.method, exec := { handle := h.handle } })

def cmdExecToFn (exec : execFn) : Handler := Handler.cmdExec exec

/-- The body of the closure `cmdExecToFn exec` returns. -/
def cmdExecToFn.call (env : Env) (exec : execFn) (c : command) : result :=
  match env.marshal c.Payload with
  | Except.error er =>
    { ID := c.ID, IsErr := true,
      ErrMsg := "agent wasm: failed to unmarshal payload. err=" ++ er }
  | Except.ok b =>
    match exec.run env b with
    | Except.error err => newErrResult c.ID err
    | Except.ok buf =>
      if buf.length > 0 then
        match env.unmarshal buf with
        | Except.error err =>
          { ID := c.ID, IsErr := true,
            ErrMsg := "agent wasm: failed to unmarshal command result=" ++ buf ++
              " err=" ++ err }
        | Except.ok payload => { ID := c.ID, Payload := payload }
      else
        { ID := c.ID, Payload := some [] }

def addCommandHandlers (handlers : List commandHandler) (pkgMap : PkgMap) : PkgMap :=
  handlers.foldl
    (fun pkgMap h =>
      let fnMap := (GoMap.get pkgMap h.name).getD []
      GoMap.set pkgMap h.name (GoMap.set fnMap h.method (cmdExecToFn h.exec)))
    pkgMap

def addAgentHandlers (pkgMap : PkgMap) : PkgMap :=
  GoMap.set pkgMap commandPkg [(startFn, Handler.start)]

def addStopAgentHandler (a : Aries) (pkgMap : PkgMap) : PkgMap :=
  GoMap.set pkgMap commandPkg [(stopFn, Handler.stop a)]

/-- The body of the closure `addAgentHandlers` stores under `Start`: the result and the
handler table afterwards. -/
def addAgentHandlers.start (env : Env) (pkgMap : PkgMap) (c : command) : result × PkgMap :=
  match startOpts env c.Payload with
  | Except.error err => (newErrResult c.ID err, pkgMap)
  | Except.ok cOpts =>
    match setLogLevel env cOpts.LogLevel with
    | some err => (newErrResult c.ID err, pkgMap)
    | none =>
      match agentOpts env cOpts with
      | Except.error err => (newErrResult c.ID err, pkgMap)
      | Except.ok options =>
        let options := options ++ [AriesOption.withMessageServiceProvider]
        match env.ariesNew options with
        | Except.error err => (newErrResult c.ID err, pkgMap)
        | Except.ok a =>
          match env.context a with
          | Except.error err => (newErrResult c.ID err, pkgMap)
          | Except.ok ctx =>
            match getAriesHandlers env ctx cOpts with
            | Except.error err => (newErrResult c.ID err, pkgMap)
            | Except.ok handlers =>
              match getAgentHandlers env ctx cOpts with
              | Except.error err => (newErrResult c.ID err, pkgMap)
              | Except.ok agentHandlers =>
                let handlers := handlers ++ agentHandlers
                let pkgMap := addCommandHandlers handlers pkgMap
                let pkgMap := addStopAgentHandler a pkgMap
                ({ ID := c.ID,
                   Payload := some [("message", JSONValue.str "agent started successfully")] },
                 pkgMap)

/-- The body of the closure `addStopAgentHandler` stores under `Stop`: the result and the
handler table afterwards. -/
def addStopAgentHandler.stop (env : Env) (a : Aries) (pkgMap : PkgMap) (c : command) :
    result × PkgMap :=
  match env.close a with
  | some err => (newErrResult c.ID err, pkgMap)
  | none =>
    ({ ID := c.ID, Payload := some [("message", JSONValue.str "agent stopped")] },
     addAgentHandlers [])

/-- Calling a stored handler on a command, with the handler table it captured. -/
def Handler.call (env : Env) (pkgMap : PkgMap) : Handler → command → result × PkgMap
  | Handler.testEcho, c =>
    ({ ID := c.ID, Payload := some [("echo", JSONValue.ofPayload c.Payload)] }, pkgMap)
  | Handler.testThrowError, c => (newErrResult c.ID "an error !!", pkgMap)
  | Handler.testTimeout, c =>
    ({ ID := c.ID, Payload := some [("echo", JSONValue.ofPayload c.Payload)] }, pkgMap)
  | Handler.start, c => addAgentHandlers.start env pkgMap c
  | Handler.stop a, c => addStopAgentHandler.stop env a pkgMap c
  | Handler.cmdExec exec, c => (cmdExecToFn.call env exec c, pkgMap)

/-! ## The worker -/

/-- The handler table `pipe` hands to the workers. -/
def pipe : PkgMap := addAgentHandlers testHandlers

/-- One iteration of the loop of `worker`: the result sent to `output` for the command `c`
and the handler table afterwards. The warning logged for an empty id changes neither. -/
def worker.step (env : Env) (handlers : PkgMap) (c : command) : result × PkgMap :=
  match GoMap.get handlers c.Pkg with
  | some pkg =>
    match GoMap.get pkg c.Fn with
    | some fn => fn.call env handlers c
    | none => (handlerNotFoundErr c, handlers)
  | none => (handlerNotFoundErr c, handlers)

/-- The loop of `worker` over the commands of `input`, each processed against the external
outcomes current at that time: the results sent to `output`, in order, and the final handler
table. -/
def worker : List (Env × command) → PkgMap → List result × PkgMap
  | [], handlers => ([], handlers)
  | (env, c) :: input, handlers =>
    let (r, handlers) := worker.step env handlers c
    let (rs, handlers) := worker input handlers
    (r :: rs, handlers)

/-! ## Specification vocabulary -/

/-- The two-level lookup the worker performs: the handler under `(pkg, fn)`, if both levels
are present. -/
def lookup (handlers : PkgMap) (pkg fn : String) : Option Handler :=
  match GoMap.get handlers pkg with
  | some fnMap => GoMap.get fnMap fn
  | none => none

/-- The message of a routing miss while no session is active, for a command that is not a
start command. -/
def notStartedMsg (c : command) : String :=
  if c.Pkg = "agent" ∧ c.Fn = "Stop" then "agent wasm: Agent not running"
  else "agent wasm: invalid pkg/fn: " ++ c.Pkg ++ "/" ++ c.Fn ++ ", make sure agent is started"

/-- Every step of the start handler succeeds: the options parse, the log level is set, the
agent options are built, the framework is constructed, its context is obtained, and both
providers hand over their handlers `handlers` and `agentHandlers`. -/
def StartSucceeds (env : Env) (c : command) (a : Aries)
    (handlers agentHandlers : List commandHandler) : Prop :=
  ∃ cOpts options ctx,
    startOpts env c.Payload = Except.ok cOpts ∧
    setLogLevel env cOpts.LogLevel = none ∧
    agentOpts env cOpts = Except.ok options ∧
    env.ariesNew (options ++ [AriesOption.withMessageServiceProvider]) = Except.ok a ∧
    env.context a = Except.ok ctx ∧
    getAriesHandlers env ctx cOpts = Except.ok handlers ∧
    getAgentHandlers env ctx cOpts = Except.ok agentHandlers

/-- An environment for examples: the payload decodes to `opts`, the first provider exposes
`handlers`, the second none, `Close` returns `closeErr`, every other call succeeds, and a map
range visits the entries in the order they were added. -/
def sampleEnv (opts : agentStartOpts) (handlers : List ProviderHandler)
    (closeErr : Option String) : Env where
  decode := fun _ => Except.ok opts
  parseLevel := fun _ => none
  newHMACKeyHandle := none
  tinkcryptoNew := none
  newRESTProvider := fun _ _ => none
  newECDHKeyHandle := none
  publicKeyHandle := none
  writeWithNoSecrets := none
  unmarshalPublicKey := none
  newIndexedDBProvider := fun _ => none
  httpbindingNew := fun _ _ => none
  newHTTPOutbound := none
  ariesNew := fun _ => Except.ok { handle := 0 }
  context := fun _ => Except.ok { handle := 0 }
  ariesHandlers := fun _ _ => Except.ok handlers
  agentHandlers := fun _ _ => Except.ok []
  close := fun _ => closeErr
  marshal := fun _ => Except.ok "{}"
  unmarshal := fun _ => Except.ok (some [])
  rangeOrder := fun set => ⟨set, List.Perm.refl set⟩
  handle := fun _ _ => ("", none)

/-- Minimal valid start options: no resolvers, no transports, storage in IndexedDB. -/
def minimalOpts : agentStartOpts := { StorageType := "indexedDB" }

/-- The commands the three handlers of `testHandlers` serve. -/
def isTestCommand (c : command) : Prop :=
  c.Pkg = "test" ∧ (c.Fn = "echo" ∨ c.Fn = "throwError" ∨ c.Fn = "timeout")

instance (c : command) : Decidable (isTestCommand c) := by
  unfold isTestCommand
  infer_instance

/-- The handler table a successful stop leaves behind. -/
def idleHandlers : PkgMap := [("agent", [("Start", Handler.start)])]

/-- An environment for examples like `sampleEnv` whose payload decoding fails. -/
def badPayloadEnv : Env :=
  { sampleEnv minimalOpts [] none with decode := fun _ => Except.error "bad options" }

/-- The handler table after the start command of id "1" succeeds at startup in the
environment `sampleEnv minimalOpts handlers none`. -/
def startedHandlers (handlers : List ProviderHandler) : PkgMap :=
  (worker.step (sampleEnv minimalOpts handlers none) pipe ⟨"1", "agent", "Start", none⟩).2

/-- Whether a session exists once the command `c` has been processed, given whether one
existed before: a start handler that returns a success creates the session, a stop handler
that returns a success destroys it, and nothing else changes it. -/
def sessionAfter (env : Env) (handlers : PkgMap) (c : command) (active : Bool) : Bool :=
  match lookup handlers c.Pkg c.Fn with
  | some Handler.start => if (worker.step env handlers c).1.IsErr then active else true
  | some (Handler.stop _) => if (worker.step env handlers c).1.IsErr then active else false
  | _ => active

/-- The handler tables reachable from the startup table by processing commands one at a
time, each under arbitrary external outcomes, together with whether a session exists. -/
inductive Reachable : PkgMap → Bool → Prop where
  | startup : Reachable pipe false
  | step (env : Env) (c : command) {handlers : PkgMap} {active : Bool} :
      Reachable handlers active →
      Reachable (worker.step env handlers c).2 (sessionAfter env handlers c active)

/-- The last handler of the list registered under `(name, method)`. -/
def lastWith : List commandHandler → String → String → Option commandHandler
  | [], _, _ => none
  | h :: hs, name, method =>
    match lastWith hs name method with
    | some later => some later
    | none => if h.name = name ∧ h.method = method then some h else none

/-- The result of a successful start. -/
def startedResult (id : String) : result :=
  { ID := id, Payload := some [("message", JSONValue.str "agent started successfully")] }

/-- The result of a successful stop. -/
def stoppedResult (id : String) : result :=
  { ID := id, Payload := some [("message", JSONValue.str "agent stopped")] }

/-- The text of the storage-type error for the value `v`. -/
def invalidStorageTypeText (v : String) : String :=
  v ++ " is not a valid storage type. Valid storage types: sds, indexedDB"

/-- A resolver spec that splits into exactly two parts on "@". -/
def wellFormedResolver (resolver : String) : Prop :=
  (stringsSplit resolver '@').length = numPartsResolverOption

instance (resolver : String) : Decidable (wellFormedResolver resolver) := by
  unfold wellFormedResolver
  infer_instance

/-- The first entry, in list order, that is not well formed. -/
def firstMalformed (resolvers : List String) : Option String :=
  resolvers.find? (fun entry => decide (¬ wellFormedResolver entry))

/-- The URL part of a well-formed resolver spec. -/
def resolverURL (resolver : String) : String :=
  (stringsSplit resolver '@').getD 1 ""

/-- Start options for examples: a well-formed resolver spec followed by one without "@". -/
def badResolverOpts : agentStartOpts :=
  { StorageType := "indexedDB", HTTPResolvers := ["v1@http://resolver.com", "noseparator"] }

/-- Well-formed resolver specs for examples: two URLs, the first of them listed again after
the second. -/
def repeatedURLResolvers : List String :=
  ["v1@http://a.com", "v2@http://b.com", "v3@http://a.com"]

/-- Start options for examples: an unknown storage type and a resolver spec without "@". -/
def badStorageAndResolverOpts : agentStartOpts :=
  { StorageType := "foo", HTTPResolvers := ["noseparator"] }

/-! ## Go map lemmas -/

theorem GoMap.get_set_self {β : Type} (m : GoMap β) (k : String) (v : β) :
    GoMap.get (GoMap.set m k v) k = some v := by
  induction m with
  | nil => simp [GoMap.set, GoMap.get]
  | cons e rest ih =>
    obtain ⟨k0, v0⟩ := e
    by_cases h : k0 = k
    · simp [GoMap.set, GoMap.get, h]
    · simp [GoMap.set, GoMap.get, h, ih]

theorem GoMap.get_set_ne {β : Type} (m : GoMap β) (k key : String) (v : β) (h : k ≠ key) :
    GoMap.get (GoMap.set m k v) key = GoMap.get m key := by
  induction m with
  | nil => simp [GoMap.set, GoMap.get, h]
  | cons e rest ih =>
    obtain ⟨k0, v0⟩ := e
    by_cases h0 : k0 = k
    · subst h0
      simp [GoMap.set, GoMap.get, h]
    · by_cases h1 : k0 = key
      · subst h1
        simp [GoMap.set, GoMap.get, h0]
      · simp [GoMap.set, GoMap.get, h0, h1, ih]

theorem worker_step_eq (env : Env) (handlers : PkgMap) (c : command) :
    worker.step env handlers c =
      match lookup handlers c.Pkg c.Fn with
      | some fn => fn.call env handlers c
      | none => (handlerNotFoundErr c, handlers) := by
  unfold worker.step lookup
  cases GoMap.get handlers c.Pkg with
  | none => rfl
  | some pkg => cases GoMap.get pkg c.Fn <;> rfl

theorem handlerNotFoundErr_eq (c : command) :
    handlerNotFoundErr c =
      { ID := c.ID, IsErr := true,
        ErrMsg :=
          (if c.Pkg = "agent" ∧ c.Fn = "Start" then "agent wasm: Agent already started"
           else if c.Pkg = "agent" ∧ c.Fn = "Stop" then "agent wasm: Agent not running"
           else "agent wasm: invalid pkg/fn: " ++ c.Pkg ++ "/" ++ c.Fn ++
             ", make sure agent is started") } := by
  unfold handlerNotFoundErr isStartCommand isStopCommand commandPkg startFn stopFn
  by_cases h1 : c.Pkg = "agent" ∧ c.Fn = "Start"
  · simp [h1, newErrResult]
  · by_cases h2 : c.Pkg = "agent" ∧ c.Fn = "Stop"
    · have h3 : ¬ (c.Pkg = "agent" ∧ c.Fn = "Start") := h1
      simp [h2, newErrResult]
    · have hlit : "agent wasm: " ++ "invalid pkg/fn: " = "agent wasm: invalid pkg/fn: " := by
        decide
      simp only [Bool.and_eq_true, beq_iff_eq, h1, h2, if_false, newErrResult]
      simp only [String.append_assoc]
      rw [← String.append_assoc "agent wasm: ", hlit]

theorem pipe_eq :
    pipe = [("test", [("echo", Handler.testEcho), ("throwError", Handler.testThrowError),
      ("timeout", Handler.testTimeout)]), ("agent", [("Start", Handler.start)])] := by
  decide

theorem addAgentHandlers_nil : addAgentHandlers [] = idleHandlers := by decide

/-! ## Start and stop, step by step -/

theorem start_of_succeeds (env : Env) (pkgMap : PkgMap) (c : command) (a : Aries)
    (handlers agentHandlers : List commandHandler)
    (hok : StartSucceeds env c a handlers agentHandlers) :
    addAgentHandlers.start env pkgMap c =
      (startedResult c.ID,
        addStopAgentHandler a (addCommandHandlers (handlers ++ agentHandlers) pkgMap)) := by
  obtain ⟨cOpts, options, ctx, h1, h2, h3, h4, h5, h6, h7⟩ := hok
  simp [addAgentHandlers.start, h1, h2, h3, h4, h5, h6, h7, startedResult]

theorem start_of_fails (env : Env) (pkgMap : PkgMap) (c : command)
    (hfail : ¬ ∃ a handlers agentHandlers, StartSucceeds env c a handlers agentHandlers) :
    ∃ err, addAgentHandlers.start env pkgMap c = (newErrResult c.ID err, pkgMap) := by
  cases h1 : startOpts env c.Payload with
  | error e => exact ⟨e, by simp [addAgentHandlers.start, h1]⟩
  | ok cOpts =>
    cases h2 : setLogLevel env cOpts.LogLevel with
    | some e => exact ⟨e, by simp [addAgentHandlers.start, h1, h2]⟩
    | none =>
      cases h3 : agentOpts env cOpts with
      | error e => exact ⟨e, by simp [addAgentHandlers.start, h1, h2, h3]⟩
      | ok options =>
        cases h4 : env.ariesNew (options ++ [AriesOption.withMessageServiceProvider]) with
        | error e => exact ⟨e, by simp [addAgentHandlers.start, h1, h2, h3, h4]⟩
        | ok a =>
          cases h5 : env.context a with
          | error e => exact ⟨e, by simp [addAgentHandlers.start, h1, h2, h3, h4, h5]⟩
          | ok ctx =>
            cases h6 : getAriesHandlers env ctx cOpts with
            | error e =>
              exact ⟨e, by simp [addAgentHandlers.start, h1, h2, h3, h4, h5, h6]⟩
            | ok handlers =>
              cases h7 : getAgentHandlers env ctx cOpts with
              | error e =>
                exact ⟨e, by simp [addAgentHandlers.start, h1, h2, h3, h4, h5, h6, h7]⟩
              | ok agentHandlers =>
                exact absurd ⟨a, handlers, agentHandlers, cOpts, options, ctx,
                  h1, h2, h3, h4, h5, h6, h7⟩ hfail

theorem start_cases (env : Env) (pkgMap : PkgMap) (c : command) :
    (∃ err, addAgentHandlers.start env pkgMap c = (newErrResult c.ID err, pkgMap)) ∨
    (∃ a hs, addAgentHandlers.start env pkgMap c =
      (startedResult c.ID, addStopAgentHandler a (addCommandHandlers hs pkgMap))) := by
  by_cases h : ∃ a handlers agentHandlers, StartSucceeds env c a handlers agentHandlers
  · obtain ⟨a, handlers, agentHandlers, hok⟩ := h
    exact Or.inr ⟨a, handlers ++ agentHandlers, start_of_succeeds env pkgMap c a _ _ hok⟩
  · exact Or.inl (start_of_fails env pkgMap c h)

theorem stop_cases (env : Env) (a : Aries) (pkgMap : PkgMap) (c : command) :
    (∃ err, env.close a = some err ∧
      addStopAgentHandler.stop env a pkgMap c = (newErrResult c.ID err, pkgMap)) ∨
    (env.close a = none ∧
      addStopAgentHandler.stop env a pkgMap c = (stoppedResult c.ID, idleHandlers)) := by
  cases h : env.close a with
  | some e => exact Or.inl ⟨e, rfl, by simp [addStopAgentHandler.stop, h]⟩
  | none =>
    exact Or.inr ⟨rfl, by simp [addStopAgentHandler.stop, h, stoppedResult, addAgentHandlers_nil]⟩

theorem get_addStopAgentHandler (a : Aries) (pkgMap : PkgMap) :
    GoMap.get (addStopAgentHandler a pkgMap) "agent" = some [("Stop", Handler.stop a)] := by
  unfold addStopAgentHandler commandPkg stopFn
  exact GoMap.get_set_self _ _ _


theorem lookup_set_set (m : PkgMap) (n me name method : String) (v : Handler) :
    lookup (GoMap.set m n (GoMap.set ((GoMap.get m n).getD []) me v)) name method =
      if n = name ∧ me = method then some v else lookup m name method := by
  by_cases hn : n = name
  · subst hn
    unfold lookup
    rw [GoMap.get_set_self]
    by_cases hm : me = method
    · subst hm
      simp [GoMap.get_set_self]
    · simp only [hm, and_false, if_false]
      rw [GoMap.get_set_ne _ _ _ _ hm]
      cases GoMap.get m n with
      | none => simp [GoMap.get]
      | some f => simp
  · unfold lookup
    rw [GoMap.get_set_ne _ _ _ _ hn]
    simp [hn]

theorem lastWith_cons (h : commandHandler) (hs : List commandHandler) (name method : String) :
    lastWith (h :: hs) name method =
      match lastWith hs name method with
      | some later => some later
      | none => if h.name = name ∧ h.method = method then some h else none := rfl

theorem lookup_addCommandHandlers (hs : List commandHandler) (m : PkgMap)
    (name method : String) :
    lookup (addCommandHandlers hs m) name method =
      match lastWith hs name method with
      | some h => some (cmdExecToFn h.exec)
      | none => lookup m name method := by
  induction hs generalizing m with
  | nil => simp [addCommandHandlers, lastWith]
  | cons h hs ih =>
    have hstep : addCommandHandlers (h :: hs) m =
        addCommandHandlers hs
          (GoMap.set m h.name
            (GoMap.set ((GoMap.get m h.name).getD []) h.method (cmdExecToFn h.exec))) := by
      simp [addCommandHandlers]
    rw [hstep, ih, lookup_set_set, lastWith_cons]
    cases lastWith hs name method with
    | some later => rfl
    | none =>
      by_cases hm : h.name = name ∧ h.method = method
      · simp [hm]
      · simp [hm]

theorem lookup_addStopAgentHandler (a : Aries) (m : PkgMap) (name method : String)
    (hname : name ≠ "agent") :
    lookup (addStopAgentHandler a m) name method = lookup m name method := by
  unfold lookup addStopAgentHandler commandPkg
  rw [GoMap.get_set_ne _ _ _ _ (Ne.symm hname)]

theorem lastWith_of_mem (hs : List commandHandler) (h : commandHandler) (hmem : h ∈ hs) :
    ∃ h2, lastWith hs h.name h.method = some h2 := by
  induction hs with
  | nil => cases hmem
  | cons x xs ih =>
    rw [lastWith_cons]
    cases hl : lastWith xs h.name h.method with
    | some later => exact ⟨later, rfl⟩
    | none =>
      rcases List.mem_cons.mp hmem with heq | hin
      · subst heq
        exact ⟨h, by simp⟩
      · obtain ⟨h2, hh⟩ := ih hin
        rw [hl] at hh
        cases hh

theorem cmdExecToFn_call_id (env : Env) (exec : execFn) (c : command) :
    (cmdExecToFn.call env exec c).ID = c.ID := by
  unfold cmdExecToFn.call
  split
  · rfl
  · split
    · rfl
    · split
      · split <;> rfl
      · rfl

theorem worker_step_id (env : Env) (handlers : PkgMap) (c : command) :
    (worker.step env handlers c).1.ID = c.ID := by
  rw [worker_step_eq]
  cases lookup handlers c.Pkg c.Fn with
  | none => simp [handlerNotFoundErr_eq]
  | some fn =>
    cases fn with
    | testEcho => rfl
    | testThrowError => rfl
    | testTimeout => rfl
    | cmdExec exec => exact cmdExecToFn_call_id env exec c
    | start =>
      rcases start_cases env handlers c with ⟨err, he⟩ | ⟨a, hs, he⟩
      · simp [Handler.call, he, newErrResult]
      · simp [Handler.call, he, startedResult]
    | stop a =>
      rcases stop_cases env a handlers c with ⟨err, _, he⟩ | ⟨_, he⟩
      · simp [Handler.call, he, newErrResult]
      · simp [Handler.call, he, stoppedResult]

theorem reachable_startedHandlers (handlers : List ProviderHandler) :
    Reachable (startedHandlers handlers) true :=
  Reachable.step (sampleEnv minimalOpts handlers none) ⟨"1", "agent", "Start", none⟩
    Reachable.startup

theorem sampleEnv_succeeds (handlers : List ProviderHandler) (closeErr : Option String)
    (c : command) :
    StartSucceeds (sampleEnv minimalOpts handlers closeErr) c { handle := 0 }
      (handlers.map fun h =>
        { name := h.name, method := h.method, exec := { handle := h.handle } }) [] :=
  ⟨minimalOpts, _, { handle := 0 }, rfl, rfl, rfl, rfl, rfl, rfl, rfl⟩

theorem length_splitChars (sep : Char) (cs : List Char) :
    (splitChars sep cs).length = cs.count sep + 1 := by
  induction cs with
  | nil => rfl
  | cons c cs ih =>
    by_cases h : c = sep
    · subst h
      simp [splitChars, ih]
    · have hcount : (c :: cs).count sep = cs.count sep := by
        rw [List.count_cons]
        simp [h]
      have hstep : splitChars sep (c :: cs) =
          match splitChars sep cs with
          | [] => [[c]]
          | piece :: pieces => (c :: piece) :: pieces := by
        rw [splitChars, if_neg h]
      rw [hstep, hcount, ← ih]
      cases hs : splitChars sep cs with
      | nil => rw [hs] at ih; simp at ih
      | cons piece pieces => rfl

theorem not_wellFormed_of_no_at (resolver : String) (h : '@' ∉ resolver.data) :
    ¬ wellFormedResolver resolver := by
  unfold wellFormedResolver stringsSplit numPartsResolverOption
  rw [List.length_map, length_splitChars, List.count_eq_zero_of_not_mem h]
  decide

theorem keys_set {β : Type} (m : GoMap β) (key : String) (val : β) (k : String)
    (hk : k ∈ (GoMap.set m key val).map Prod.fst) : k = key ∨ k ∈ m.map Prod.fst := by
  induction m with
  | nil =>
    simp [GoMap.set] at hk
    exact Or.inl hk
  | cons e rest ih =>
    obtain ⟨k0, v0⟩ := e
    by_cases h0 : k0 = key
    · simp only [GoMap.set, h0, if_true, List.map_cons, List.mem_cons] at hk
      rcases hk with hk | hk
      · exact Or.inl hk
      · exact Or.inr (by simp [hk])
    · simp only [GoMap.set, h0, if_false, List.map_cons, List.mem_cons] at hk
      rcases hk with hk | hk
      · exact Or.inr (by simp [hk])
      · rcases ih hk with h | h
        · exact Or.inl h
        · exact Or.inr (by simp [h])

theorem collect_malformed (resolvers : List String) (entry : String)
    (hfirst : firstMalformed resolvers = some entry)
    (set : GoMap (GoMap Unit)) (order : GoMap Int) (idx : Int) :
    createVDRs.collect resolvers set order idx =
      Except.error ("invalid http resolver options found: " ++ entry) := by
  induction resolvers generalizing set order idx with
  | nil => simp [firstMalformed] at hfirst
  | cons r rest ih =>
    by_cases hw : wellFormedResolver r
    · have hrest : firstMalformed rest = some entry := by
        simpa [firstMalformed, List.find?_cons, hw] using hfirst
      have hlen : ¬ (stringsSplit r '@').length ≠ numPartsResolverOption := by
        simpa [wellFormedResolver] using hw
      simp only [createVDRs.collect, if_neg hlen]
      exact ih hrest _ _ _
    · have heq : r = entry := by
        simpa [firstMalformed, List.find?_cons, hw] using hfirst
      subst heq
      have hlen : (stringsSplit r '@').length ≠ numPartsResolverOption := hw
      simp only [createVDRs.collect, if_pos hlen]

theorem collect_wellFormed (resolvers : List String)
    (hall : ∀ entry ∈ resolvers, wellFormedResolver entry)
    (set : GoMap (GoMap Unit)) (order : GoMap Int) (idx : Int) :
    ∃ set2 order2, createVDRs.collect resolvers set order idx = Except.ok (set2, order2) ∧
      ∀ url ∈ set2.map Prod.fst,
        url ∈ set.map Prod.fst ∨ ∃ entry ∈ resolvers, url = resolverURL entry := by
  induction resolvers generalizing set order idx with
  | nil => exact ⟨set, order, rfl, fun url h => Or.inl h⟩
  | cons r rest ih =>
    have hw : wellFormedResolver r := hall r (List.mem_cons_self _ _)
    have hlen : ¬ (stringsSplit r '@').length ≠ numPartsResolverOption := by
      simpa [wellFormedResolver] using hw
    simp only [createVDRs.collect, if_neg hlen]
    obtain ⟨set2, order2, hcol, hkeys⟩ :=
      ih (fun e he => hall e (List.mem_cons_of_mem _ he))
        (GoMap.set
          (if (GoMap.get set ((stringsSplit r '@').getD 1 "")).isNone = true then
            GoMap.set set ((stringsSplit r '@').getD 1 "") [] else set)
          ((stringsSplit r '@').getD 1 "")
          (GoMap.set
            ((GoMap.get
              (if (GoMap.get set ((stringsSplit r '@').getD 1 "")).isNone = true then
                GoMap.set set ((stringsSplit r '@').getD 1 "") [] else set)
              ((stringsSplit r '@').getD 1 "")).getD [])
            ((stringsSplit r '@').getD 0 "") ()))
        (GoMap.set order ((stringsSplit r '@').getD 1 "")
          (if (GoMap.get set ((stringsSplit r '@').getD 1 "")).isNone = true then idx + 1
           else idx))
        (if (GoMap.get set ((stringsSplit r '@').getD 1 "")).isNone = true then idx + 1
         else idx)
    refine ⟨set2, order2, hcol, ?_⟩
    intro url hurl
    rcases hkeys url hurl with h | ⟨e, he, hu⟩
    · rcases keys_set _ _ _ _ h with h1 | h1
      · exact Or.inr ⟨r, List.mem_cons_self _ _, h1⟩
      · by_cases hfresh : (GoMap.get set ((stringsSplit r '@').getD 1 "")).isNone = true
        · rw [if_pos hfresh] at h1
          rcases keys_set _ _ _ _ h1 with h2 | h2
          · exact Or.inr ⟨r, List.mem_cons_self _ _, h2⟩
          · exact Or.inl h2
        · rw [if_neg hfresh] at h1
          exact Or.inl h1
    · exact Or.inr ⟨e, List.mem_cons_of_mem _ he, hu⟩

theorem build_succeeds (env : Env) (order : GoMap Int) (set : List (String × GoMap Unit))
    (hnew : ∀ url ∈ set.map Prod.fst, ∀ methods, env.httpbindingNew url methods = none)
    (VDRs : List (Option VDR)) :
    ∃ built, createVDRs.build env order set VDRs = Except.ok built := by
  induction set generalizing VDRs with
  | nil => exact ⟨VDRs, rfl⟩
  | cons e rest ih =>
    obtain ⟨url, methods⟩ := e
    have h1 : env.httpbindingNew url methods = none := hnew url (by simp) methods
    simp only [createVDRs.build, h1]
    exact ih (fun u hu ms => hnew u (by simp [List.mem_map] at hu ⊢; exact Or.inr hu) ms) _

theorem firstMalformed_eq_none (resolvers : List String) :
    firstMalformed resolvers = none ↔ ∀ entry ∈ resolvers, wellFormedResolver entry := by
  simp [firstMalformed, List.find?_eq_none]

theorem GoMap.length_set {β : Type} (m : GoMap β) (k : String) (v : β) :
    (GoMap.set m k v).length =
      if (GoMap.get m k).isSome then m.length else m.length + 1 := by
  induction m with
  | nil => simp [GoMap.set, GoMap.get]
  | cons e rest ih =>
    obtain ⟨k0, v0⟩ := e
    by_cases h0 : k0 = k
    · simp [GoMap.set, GoMap.get, h0]
    · simp only [GoMap.set, GoMap.get, h0, if_false, List.length_cons, ih]
      split <;> rfl

theorem collect_order_range (resolvers : List String) (set : GoMap (GoMap Unit))
    (order : GoMap Int) (idx : Int) (set2 : GoMap (GoMap Unit)) (order2 : GoMap Int)
    (hlen : (set.length : Int) = idx + 1)
    (hord : ∀ k i, GoMap.get order k = some i → 0 ≤ i ∧ i ≤ idx)
    (hcol : createVDRs.collect resolvers set order idx = Except.ok (set2, order2)) :
    ∀ k i, GoMap.get order2 k = some i → 0 ≤ i ∧ i < (set2.length : Int) := by
  induction resolvers generalizing set order idx with
  | nil =>
    simp only [createVDRs.collect, Except.ok.injEq, Prod.mk.injEq] at hcol
    obtain ⟨h1, h2⟩ := hcol
    subst h1 h2
    intro k i hk
    have := hord k i hk
    omega
  | cons r rest ih =>
    by_cases hw : (stringsSplit r '@').length ≠ numPartsResolverOption
    · simp [createVDRs.collect, hw] at hcol
    · simp only [createVDRs.collect, if_neg hw] at hcol
      by_cases hfresh : (GoMap.get set ((stringsSplit r '@').getD 1 "")).isNone = true
      · simp only [hfresh, if_true] at hcol
        have hnone : GoMap.get set ((stringsSplit r '@').getD 1 "") = none := by
          simpa using hfresh
        refine ih _ _ _ ?_ ?_ hcol
        · rw [GoMap.length_set, GoMap.get_set_self, GoMap.length_set, hnone]
          simp only [Option.isSome_some, if_true, Option.isSome_none]
          push_cast
          omega
        · intro k i hk
          by_cases hk1 : (stringsSplit r '@').getD 1 "" = k
          · rw [← hk1, GoMap.get_set_self] at hk
            have : idx + 1 = i := by simpa using hk
            omega
          · rw [GoMap.get_set_ne _ _ _ _ hk1] at hk
            have := hord k i hk
            omega
      · have hsome : (GoMap.get set ((stringsSplit r '@').getD 1 "")).isSome = true := by
          cases hg : GoMap.get set ((stringsSplit r '@').getD 1 "") with
          | none => exact absurd (by rw [hg]; rfl) hfresh
          | some x => rfl
        have hf : (GoMap.get set ((stringsSplit r '@').getD 1 "")).isNone = false := by
          cases hg : GoMap.get set ((stringsSplit r '@').getD 1 "") with
          | none => exact absurd (by rw [hg]; rfl) hfresh
          | some x => rfl
        simp only [hf, Bool.false_eq_true, if_false] at hcol
        have hpos : 1 ≤ set.length := by
          cases set with
          | nil => simp [GoMap.get] at hsome
          | cons e t => simp
        refine ih _ _ _ ?_ ?_ hcol
        · rw [GoMap.length_set, hsome]
          simpa using hlen
        · intro k i hk
          by_cases hk1 : (stringsSplit r '@').getD 1 "" = k
          · rw [← hk1, GoMap.get_set_self] at hk
            have : idx = i := by simpa using hk
            omega
          · rw [GoMap.get_set_ne _ _ _ _ hk1] at hk
            exact hord k i hk

/-- The store `VDRs[order[url]]` of `createVDRs` is always within the bounds of `VDRs`, whose
length is the number of URLs in `set`. -/
theorem createVDRs_index_in_range (resolvers : List String) (set2 : GoMap (GoMap Unit))
    (order2 : GoMap Int)
    (hcol : createVDRs.collect resolvers [] [] (-1) = Except.ok (set2, order2))
    (url : String) (hurl : url ∈ set2.map Prod.fst) :
    0 ≤ (GoMap.get order2 url).getD 0 ∧
    ((GoMap.get order2 url).getD 0).toNat <
      (List.replicate set2.length (none : Option VDR)).length := by
  have hrange := collect_order_range resolvers [] [] (-1) set2 order2 (by simp)
    (by intro k i hk; simp [GoMap.get] at hk) hcol
  have hpos : 1 ≤ set2.length := by
    cases set2 with
    | nil => simp at hurl
    | cons e t => simp
  rw [List.length_replicate]
  cases hg : GoMap.get order2 url with
  | none => simp; omega
  | some i =>
    have := hrange url i hg
    simp only [Option.getD_some]
    omega

theorem perm_pair {α : Type} (x y : α) (l : List α) (h : l.Perm [x, y]) :
    l = [x, y] ∨ l = [y, x] := by
  match l, h with
  | [], h => exact absurd h.length_eq (by simp)
  | [p], h => exact absurd h.length_eq (by simp)
  | p :: q :: r :: t, h => exact absurd h.length_eq (by simp)
  | [p, q], h =>
    have hp : p ∈ [x, y] := h.mem_iff.mp (by simp)
    rcases List.mem_pair.mp hp with hpx | hpy
    · subst hpx
      have hq : [q] = [y] := List.perm_singleton.mp h.cons_inv
      exact Or.inl (by rw [hq])
    · subst hpy
      have h2 : (p :: [q]).Perm (p :: [x]) := h.trans (List.Perm.swap p x [])
      have hq : [q] = [x] := List.perm_singleton.mp h2.cons_inv
      exact Or.inr (by rw [hq])

/-! ## C1 -/

/-- C1: for every command `c`, `handlerNotFoundErr c` has the id of `c`, is an error, has no
payload and an empty topic, and its message is "agent wasm: Agent already started" for
agent/Start, "agent wasm: Agent not running" for agent/Stop, and
"agent wasm: invalid pkg/fn: PKG/FN, make sure agent is started" otherwise. -/
theorem handlerNotFoundErr_spec (c : command) :
    (handlerNotFoundErr c).ID = c.ID ∧
    (handlerNotFoundErr c).IsErr = true ∧
    (handlerNotFoundErr c).Payload = none ∧
    (handlerNotFoundErr c).Topic = "" ∧
    (handlerNotFoundErr c).ErrMsg =
      (if c.Pkg = "agent" ∧ c.Fn = "Start" then "agent wasm: Agent already started"
       else if c.Pkg = "agent" ∧ c.Fn = "Stop" then "agent wasm: Agent not running"
       else "agent wasm: invalid pkg/fn: " ++ c.Pkg ++ "/" ++ c.Fn ++
         ", make sure agent is started") := by
  rw [handlerNotFoundErr_eq]
  exact ⟨rfl, rfl, rfl, rfl, rfl⟩


/-! ## C2 -/

/-- C2, as stated, fails at startup: the table `pipe` builds serves test/echo, so that command
gets a non-error Result although it is not a start command and no session is active. -/
theorem startup_serves_test_echo :
    ¬ (∀ (env : Env) (c : command), ¬ (c.Pkg = "agent" ∧ c.Fn = "Start") →
        (worker.step env pipe c).1.IsErr = true ∧
        (worker.step env pipe c).1.ErrMsg = notStartedMsg c) := by
  intro h
  have h1 := (h (sampleEnv minimalOpts [] none) ⟨"1", "test", "echo", none⟩ (by decide)).1
  exact absurd h1 (by decide)

/-- C2, amended: while no session is active, i.e. in the table `pipe` builds at startup for a
command outside the three test handlers, and in every table left by a successful stop for any
command, a command that is not agent/Start gets the routing-miss error Result, with
"agent wasm: Agent not running" for agent/Stop and
"agent wasm: invalid pkg/fn: PKG/FN, make sure agent is started" otherwise, and the table is
unchanged. -/
theorem idle_routing_miss (env : Env) (handlers : PkgMap) (c : command)
    (hidle : (handlers = pipe ∧ ¬ isTestCommand c) ∨
      (∃ (env0 : Env) (a : Aries) (pkgMap : PkgMap) (c0 : command),
        env0.close a = none ∧ handlers = (addStopAgentHandler.stop env0 a pkgMap c0).2))
    (hc : ¬ (c.Pkg = "agent" ∧ c.Fn = "Start")) :
    worker.step env handlers c = (handlerNotFoundErr c, handlers) ∧
    (handlerNotFoundErr c).ID = c.ID ∧
    (handlerNotFoundErr c).IsErr = true ∧
    (handlerNotFoundErr c).ErrMsg = notStartedMsg c := by
  have hmsg : (handlerNotFoundErr c).ErrMsg = notStartedMsg c := by
    rw [handlerNotFoundErr_eq]
    simp [notStartedMsg, hc]
  refine ⟨?_, by rw [handlerNotFoundErr_eq], by rw [handlerNotFoundErr_eq], hmsg⟩
  rw [worker_step_eq]
  have hnone : lookup handlers c.Pkg c.Fn = none := by
    rcases hidle with ⟨hp, ht⟩ | ⟨env0, a, pkgMap, c0, hclose, hp⟩
    · subst hp
      rw [pipe_eq]
      unfold isTestCommand at ht
      by_cases h1 : c.Pkg = "test"
      · have h2 : ¬ (c.Fn = "echo" ∨ c.Fn = "throwError" ∨ c.Fn = "timeout") :=
          fun h => ht ⟨h1, h⟩
        push_neg at h2
        simp [lookup, GoMap.get, h1, Ne.symm h2.1, Ne.symm h2.2.1, Ne.symm h2.2.2]
      · by_cases h3 : c.Pkg = "agent"
        · have h4 : c.Fn ≠ "Start" := fun h => hc ⟨h3, h⟩
          simp [lookup, GoMap.get, h3, Ne.symm h4]
        · simp [lookup, GoMap.get, Ne.symm h1, Ne.symm h3]
    · have hp2 : handlers = idleHandlers := by
        rw [hp]
        simp [addStopAgentHandler.stop, hclose, addAgentHandlers_nil]
      subst hp2
      by_cases h3 : c.Pkg = "agent"
      · have h4 : c.Fn ≠ "Start" := fun h => hc ⟨h3, h⟩
        simp [idleHandlers, lookup, GoMap.get, h3, Ne.symm h4]
      · simp [idleHandlers, lookup, GoMap.get, Ne.symm h3]
  rw [hnone]

/-- C2 at a stop command of id "7" processed at startup. -/
theorem idle_routing_miss_witness :
    worker.step (sampleEnv minimalOpts [] none) pipe ⟨"7", "agent", "Stop", none⟩ =
      (handlerNotFoundErr ⟨"7", "agent", "Stop", none⟩, pipe) ∧
    (handlerNotFoundErr ⟨"7", "agent", "Stop", none⟩).ID = "7" ∧
    (handlerNotFoundErr ⟨"7", "agent", "Stop", none⟩).IsErr = true ∧
    (handlerNotFoundErr ⟨"7", "agent", "Stop", none⟩).ErrMsg =
      notStartedMsg ⟨"7", "agent", "Stop", none⟩ :=
  idle_routing_miss (sampleEnv minimalOpts [] none) pipe ⟨"7", "agent", "Stop", none⟩
    (Or.inl ⟨rfl, by decide⟩) (by decide)


/-! ## C3 -/

/-- C3, as stated, fails: after a start at startup, a stop whose `Close` fails leaves the
handler table as it was, with Stop still registered, instead of resetting it to Start only. -/
theorem stop_failure_not_reset :
    ¬ (∀ (env : Env) (handlers : PkgMap) (a : Aries) (c : command) (err : String),
        Reachable handlers true →
        lookup handlers "agent" "Stop" = some (Handler.stop a) → env.close a = some err →
        c.Pkg = "agent" → c.Fn = "Stop" →
        (worker.step env handlers c).2 = [("agent", [("Start", Handler.start)])]) := by
  intro h
  have h1 := h (sampleEnv minimalOpts [] (some "close failed")) (startedHandlers [])
    { handle := 0 } ⟨"2", "agent", "Stop", none⟩ "close failed"
    (reachable_startedHandlers []) (by decide) rfl rfl rfl
  exact absurd h1 (by decide)

/-- C3, amended: for every handler table with an active session, when the stop handler runs
and `Close` fails with `err`, the worker emits the error Result with the command's id and
message "agent wasm: " followed by `err`, and the table is left as it was: Stop is still
found. -/
theorem stop_failure_keeps_table (env : Env) (handlers : PkgMap) (a : Aries) (c : command)
    (err : String) (hstop : lookup handlers "agent" "Stop" = some (Handler.stop a))
    (hclose : env.close a = some err) (hpkg : c.Pkg = "agent") (hfn : c.Fn = "Stop") :
    worker.step env handlers c = (newErrResult c.ID err, handlers) ∧
    (newErrResult c.ID err).ID = c.ID ∧
    (newErrResult c.ID err).IsErr = true ∧
    (newErrResult c.ID err).ErrMsg = "agent wasm: " ++ err ∧
    lookup (worker.step env handlers c).2 "agent" "Stop" = some (Handler.stop a) := by
  have hstep : worker.step env handlers c = (newErrResult c.ID err, handlers) := by
    rw [worker_step_eq, hpkg, hfn, hstop]
    simp [Handler.call, addStopAgentHandler.stop, hclose]
  refine ⟨hstep, rfl, rfl, rfl, ?_⟩
  rw [hstep]
  exact hstop

/-- C3 at a stop command of id "2" whose `Close` fails, after a start at startup. -/
theorem stop_failure_keeps_table_witness :
    worker.step (sampleEnv minimalOpts [] (some "close failed")) (startedHandlers [])
        ⟨"2", "agent", "Stop", none⟩ =
      (newErrResult "2" "close failed", startedHandlers []) ∧
    (newErrResult "2" "close failed").ID = "2" ∧
    (newErrResult "2" "close failed").IsErr = true ∧
    (newErrResult "2" "close failed").ErrMsg = "agent wasm: " ++ "close failed" ∧
    lookup (worker.step (sampleEnv minimalOpts [] (some "close failed")) (startedHandlers [])
        ⟨"2", "agent", "Stop", none⟩).2 "agent" "Stop" = some (Handler.stop { handle := 0 }) :=
  stop_failure_keeps_table (sampleEnv minimalOpts [] (some "close failed")) (startedHandlers [])
    { handle := 0 } ⟨"2", "agent", "Stop", none⟩ "close failed" (by decide) rfl rfl rfl

/-! ## C4 -/

/-- C4: for every handler table and every start command, if some step of the start handler
fails (parsing the options, setting the log level, building the agent options, constructing
the framework, obtaining its context, gathering the handlers of either provider), the handler
returns an error Result with the command's id and the table is exactly what it was. -/
theorem start_failure_keeps_table (env : Env) (pkgMap : PkgMap) (c : command)
    (hfail : ¬ ∃ a handlers agentHandlers, StartSucceeds env c a handlers agentHandlers) :
    ∃ err, addAgentHandlers.start env pkgMap c = (newErrResult c.ID err, pkgMap) ∧
      (addAgentHandlers.start env pkgMap c).1.IsErr = true ∧
      (addAgentHandlers.start env pkgMap c).1.ID = c.ID ∧
      (addAgentHandlers.start env pkgMap c).2 = pkgMap := by
  have key := start_of_fails env pkgMap c hfail
  obtain ⟨err, h⟩ := key
  exact ⟨err, h, by rw [h]; rfl, by rw [h]; rfl, by rw [h]⟩

/-- C4 at a start command of id "3" whose payload does not decode, at startup. -/
theorem start_failure_keeps_table_witness :
    ∃ err, addAgentHandlers.start badPayloadEnv pipe ⟨"3", "agent", "Start", none⟩ =
        (newErrResult "3" err, pipe) ∧
      (addAgentHandlers.start badPayloadEnv pipe ⟨"3", "agent", "Start", none⟩).1.IsErr = true ∧
      (addAgentHandlers.start badPayloadEnv pipe ⟨"3", "agent", "Start", none⟩).1.ID = "3" ∧
      (addAgentHandlers.start badPayloadEnv pipe ⟨"3", "agent", "Start", none⟩).2 = pipe :=
  start_failure_keeps_table badPayloadEnv pipe ⟨"3", "agent", "Start", none⟩
    (by
      rintro ⟨a, handlers, agentHandlers, cOpts, options, ctx, h1, _⟩
      simp [startOpts, badPayloadEnv] at h1)



/-! ## C5 -/

/-- C5: in every handler table reachable from the startup table by processing commands one
at a time, under any external outcomes, the package "agent" exists and holds exactly one
function: Start when no session exists and Stop when one exists; and while a session exists a
start command is a routing miss answered "agent wasm: Agent already started" that leaves the
table unchanged. -/
theorem agent_package_invariant (handlers : PkgMap) (active : Bool)
    (hreach : Reachable handlers active) :
    (∃ fnMap, GoMap.get handlers "agent" = some fnMap ∧
      ((active = false ∧ fnMap = [("Start", Handler.start)]) ∨
       (active = true ∧ ∃ a, fnMap = [("Stop", Handler.stop a)]))) ∧
    (active = true → ∀ (env : Env) (c : command), c.Pkg = "agent" → c.Fn = "Start" →
      worker.step env handlers c = (newErrResult c.ID "Agent already started", handlers) ∧
      (newErrResult c.ID "Agent already started").IsErr = true ∧
      (newErrResult c.ID "Agent already started").ErrMsg =
        "agent wasm: Agent already started") := by
  have inv : ∃ fnMap, GoMap.get handlers "agent" = some fnMap ∧
      ((active = false ∧ fnMap = [("Start", Handler.start)]) ∨
       (active = true ∧ ∃ a, fnMap = [("Stop", Handler.stop a)])) := by
    induction hreach with
    | startup => exact ⟨_, by rw [pipe_eq]; rfl, Or.inl ⟨rfl, rfl⟩⟩
    | @step env c handlers active _ ih =>
      rw [worker_step_eq]
      unfold sessionAfter
      rw [worker_step_eq]
      cases hl : lookup handlers c.Pkg c.Fn with
      | none => simpa using ih
      | some fn =>
        cases fn with
        | testEcho => simpa [Handler.call] using ih
        | testThrowError => simpa [Handler.call] using ih
        | testTimeout => simpa [Handler.call] using ih
        | cmdExec exec => simpa [Handler.call] using ih
        | start =>
          rcases start_cases env handlers c with ⟨err, he⟩ | ⟨a, hs, he⟩
          · simpa [Handler.call, he, newErrResult] using ih
          · simp only [Handler.call, he, startedResult]
            exact ⟨_, get_addStopAgentHandler a _, Or.inr ⟨by simp, a, rfl⟩⟩
        | stop a =>
          rcases stop_cases env a handlers c with ⟨err, _, he⟩ | ⟨_, he⟩
          · simpa [Handler.call, he, newErrResult] using ih
          · simp only [Handler.call, he, stoppedResult]
            exact ⟨_, rfl, Or.inl ⟨by simp, rfl⟩⟩
  refine ⟨inv, ?_⟩
  intro hactive env c hpkg hfn
  obtain ⟨fnMap, hget, hcase⟩ := inv
  rcases hcase with ⟨hf, _⟩ | ⟨_, a, hfm⟩
  · rw [hactive] at hf
    exact absurd hf (by decide)
  · subst hfm
    refine ⟨?_, rfl, by simp [newErrResult]⟩
    have hnone : lookup handlers c.Pkg c.Fn = none := by
      rw [hpkg, hfn]
      simp [lookup, hget, GoMap.get]
    rw [worker_step_eq, hnone, handlerNotFoundErr_eq]
    simp [hpkg, hfn, newErrResult]

/-- C5 at the table a successful start leaves, with a second start command of id "2". -/
theorem agent_package_invariant_witness :
    (∃ fnMap, GoMap.get (startedHandlers []) "agent" = some fnMap ∧
      ((true = false ∧ fnMap = [("Start", Handler.start)]) ∨
       (true = true ∧ ∃ a, fnMap = [("Stop", Handler.stop a)]))) ∧
    worker.step badPayloadEnv (startedHandlers []) ⟨"2", "agent", "Start", none⟩ =
      (newErrResult "2" "Agent already started", startedHandlers []) ∧
    (newErrResult "2" "Agent already started").IsErr = true ∧
    (newErrResult "2" "Agent already started").ErrMsg = "agent wasm: Agent already started" :=
  have h := agent_package_invariant (startedHandlers []) true
    (Reachable.step (sampleEnv minimalOpts [] none) ⟨"1", "agent", "Start", none⟩
      Reachable.startup)
  ⟨h.1, h.2 rfl badPayloadEnv ⟨"2", "agent", "Start", none⟩ rfl rfl⟩

/-! ## C6 -/

/-- C6, as stated, fails: a gathered handler named "agent" is not found after a successful
start at startup, because the Stop function map replaces the whole "agent" package. -/
theorem start_drops_agent_named_handler :
    ¬ (∀ (env : Env) (pkgMap : PkgMap) (c : command) (a : Aries)
        (handlers agentHandlers : List commandHandler),
        Reachable pkgMap false → StartSucceeds env c a handlers agentHandlers →
        ∀ h ∈ handlers ++ agentHandlers, ∃ last,
          lastWith (handlers ++ agentHandlers) h.name h.method = some last ∧
          lookup (addAgentHandlers.start env pkgMap c).2 h.name h.method =
            some (cmdExecToFn last.exec)) := by
  intro h
  have h1 := h (sampleEnv minimalOpts [⟨"agent", "Foo", 5⟩] none) pipe
    ⟨"1", "agent", "Start", none⟩ { handle := 0 } _ []
    Reachable.startup (sampleEnv_succeeds [⟨"agent", "Foo", 5⟩] none _)
    ⟨"agent", "Foo", ⟨5⟩⟩ (by decide)
  obtain ⟨last, _, h2⟩ := h1
  have h3 : lookup (addAgentHandlers.start (sampleEnv minimalOpts [⟨"agent", "Foo", 5⟩] none)
      pipe ⟨"1", "agent", "Start", none⟩).2 "agent" "Foo" = none := by decide
  rw [h3] at h2
  cases h2

/-- C6, amended: a successful start returns the non-error Result with the command's id and
payload message "agent started successfully"; afterwards the package "agent" holds exactly
Stop, and under every package name other than "agent" the lookup of a pair resolves to the
wrapper of the last gathered handler with that pair when there is one (so every gathered
handler not named "agent" is found, later registrations overwriting earlier ones) and to what
it resolved to before otherwise. -/
theorem start_success_installs (env : Env) (pkgMap : PkgMap) (c : command) (a : Aries)
    (handlers agentHandlers : List commandHandler)
    (hok : StartSucceeds env c a handlers agentHandlers) :
    (addAgentHandlers.start env pkgMap c).1 =
      { ID := c.ID, IsErr := false, ErrMsg := "",
        Payload := some [("message", JSONValue.str "agent started successfully")],
        Topic := "" } ∧
    GoMap.get (addAgentHandlers.start env pkgMap c).2 "agent" =
      some [("Stop", Handler.stop a)] ∧
    (∀ name method, name ≠ "agent" →
      lookup (addAgentHandlers.start env pkgMap c).2 name method =
        match lastWith (handlers ++ agentHandlers) name method with
        | some last => some (cmdExecToFn last.exec)
        | none => lookup pkgMap name method) ∧
    (∀ h ∈ handlers ++ agentHandlers, h.name ≠ "agent" → ∃ last,
      lastWith (handlers ++ agentHandlers) h.name h.method = some last ∧
      lookup (addAgentHandlers.start env pkgMap c).2 h.name h.method =
        some (cmdExecToFn last.exec)) := by
  have hstart := start_of_succeeds env pkgMap c a handlers agentHandlers hok
  have hlook : ∀ name method, name ≠ "agent" →
      lookup (addAgentHandlers.start env pkgMap c).2 name method =
        match lastWith (handlers ++ agentHandlers) name method with
        | some last => some (cmdExecToFn last.exec)
        | none => lookup pkgMap name method := by
    intro name method hname
    rw [hstart]
    simp only []
    rw [lookup_addStopAgentHandler a _ name method hname, lookup_addCommandHandlers]
  refine ⟨by rw [hstart]; rfl, by rw [hstart]; exact get_addStopAgentHandler a _, hlook, ?_⟩
  intro h hmem hname
  obtain ⟨last, hlast⟩ := lastWith_of_mem _ h hmem
  refine ⟨last, hlast, ?_⟩
  rw [hlook h.name h.method hname, hlast]

/-- C6 at a start at startup whose provider exposes the handler vdr/CreateDID. -/
theorem start_success_installs_witness :
    (addAgentHandlers.start (sampleEnv minimalOpts [⟨"vdr", "CreateDID", 5⟩] none) pipe
        ⟨"1", "agent", "Start", none⟩).1 =
      { ID := "1", IsErr := false, ErrMsg := "",
        Payload := some [("message", JSONValue.str "agent started successfully")],
        Topic := "" } ∧
    GoMap.get (addAgentHandlers.start (sampleEnv minimalOpts [⟨"vdr", "CreateDID", 5⟩] none)
        pipe ⟨"1", "agent", "Start", none⟩).2 "agent" =
      some [("Stop", Handler.stop { handle := 0 })] ∧
    (∀ name method, name ≠ "agent" →
      lookup (addAgentHandlers.start (sampleEnv minimalOpts [⟨"vdr", "CreateDID", 5⟩] none)
          pipe ⟨"1", "agent", "Start", none⟩).2 name method =
        match lastWith ([⟨"vdr", "CreateDID", ⟨5⟩⟩] ++ []) name method with
        | some last => some (cmdExecToFn last.exec)
        | none => lookup pipe name method) ∧
    (∀ h ∈ [(⟨"vdr", "CreateDID", ⟨5⟩⟩ : commandHandler)] ++ [], h.name ≠ "agent" → ∃ last,
      lastWith ([⟨"vdr", "CreateDID", ⟨5⟩⟩] ++ []) h.name h.method = some last ∧
      lookup (addAgentHandlers.start (sampleEnv minimalOpts [⟨"vdr", "CreateDID", 5⟩] none)
          pipe ⟨"1", "agent", "Start", none⟩).2 h.name h.method =
        some (cmdExecToFn last.exec)) :=
  start_success_installs (sampleEnv minimalOpts [⟨"vdr", "CreateDID", 5⟩] none) pipe
    ⟨"1", "agent", "Start", none⟩ { handle := 0 } [⟨"vdr", "CreateDID", ⟨5⟩⟩] []
    (sampleEnv_succeeds [⟨"vdr", "CreateDID", 5⟩] none _)


/-! ## C7 -/

/-- C7: for every handler table with an active session, when the stop handler runs and `Close`
succeeds, the worker emits the non-error Result with the command's id and payload message
"agent stopped", and the table afterwards is exactly the package "agent" holding Start: every
pair other than agent/Start is a routing miss and a start command reaches the start handler. -/
theorem stop_success_resets (env : Env) (handlers : PkgMap) (a : Aries) (c : command)
    (hstop : lookup handlers "agent" "Stop" = some (Handler.stop a))
    (hclose : env.close a = none) (hpkg : c.Pkg = "agent") (hfn : c.Fn = "Stop") :
    worker.step env handlers c =
      ({ ID := c.ID, IsErr := false, ErrMsg := "",
         Payload := some [("message", JSONValue.str "agent stopped")], Topic := "" },
       [("agent", [("Start", Handler.start)])]) ∧
    (∀ pkg fn, ¬ (pkg = "agent" ∧ fn = "Start") →
      lookup (worker.step env handlers c).2 pkg fn = none) ∧
    (∀ (env2 : Env) (c2 : command), c2.Pkg = "agent" → c2.Fn = "Start" →
      worker.step env2 (worker.step env handlers c).2 c2 =
        addAgentHandlers.start env2 (worker.step env handlers c).2 c2) := by
  have hstep : worker.step env handlers c =
      ({ ID := c.ID, IsErr := false, ErrMsg := "",
         Payload := some [("message", JSONValue.str "agent stopped")], Topic := "" },
       [("agent", [("Start", Handler.start)])]) := by
    rw [worker_step_eq, hpkg, hfn, hstop]
    simp [Handler.call, addStopAgentHandler.stop, hclose, addAgentHandlers_nil, idleHandlers]
  refine ⟨hstep, ?_, ?_⟩
  · intro pkg fn hne
    rw [hstep]
    by_cases h1 : pkg = "agent"
    · have h2 : fn ≠ "Start" := fun h => hne ⟨h1, h⟩
      simp [lookup, GoMap.get, h1, Ne.symm h2]
    · simp [lookup, GoMap.get, Ne.symm h1]
  · intro env2 c2 hp hf
    rw [hstep, worker_step_eq, hp, hf]
    rfl

/-- C7 at a stop command of id "2" after a start that installed vdr/CreateDID. -/
theorem stop_success_resets_witness :
    worker.step (sampleEnv minimalOpts [⟨"vdr", "CreateDID", 5⟩] none)
        (startedHandlers [⟨"vdr", "CreateDID", 5⟩]) ⟨"2", "agent", "Stop", none⟩ =
      ({ ID := "2", IsErr := false, ErrMsg := "",
         Payload := some [("message", JSONValue.str "agent stopped")], Topic := "" },
       [("agent", [("Start", Handler.start)])]) ∧
    lookup (startedHandlers [⟨"vdr", "CreateDID", 5⟩]) "vdr" "CreateDID" =
      some (Handler.cmdExec ⟨5⟩) ∧
    lookup (worker.step (sampleEnv minimalOpts [⟨"vdr", "CreateDID", 5⟩] none)
      (startedHandlers [⟨"vdr", "CreateDID", 5⟩]) ⟨"2", "agent", "Stop", none⟩).2
        "vdr" "CreateDID" = none ∧
    worker.step badPayloadEnv (worker.step (sampleEnv minimalOpts [⟨"vdr", "CreateDID", 5⟩] none)
      (startedHandlers [⟨"vdr", "CreateDID", 5⟩]) ⟨"2", "agent", "Stop", none⟩).2
        ⟨"3", "agent", "Start", none⟩ =
      addAgentHandlers.start badPayloadEnv
        (worker.step (sampleEnv minimalOpts [⟨"vdr", "CreateDID", 5⟩] none)
          (startedHandlers [⟨"vdr", "CreateDID", 5⟩]) ⟨"2", "agent", "Stop", none⟩).2
        ⟨"3", "agent", "Start", none⟩ :=
  have h := stop_success_resets (sampleEnv minimalOpts [⟨"vdr", "CreateDID", 5⟩] none)
    (startedHandlers [⟨"vdr", "CreateDID", 5⟩]) { handle := 0 } ⟨"2", "agent", "Stop", none⟩
    (by decide) rfl rfl rfl
  ⟨h.1, by decide, h.2.1 "vdr" "CreateDID" (by decide),
    h.2.2 badPayloadEnv ⟨"3", "agent", "Start", none⟩ rfl rfl⟩

/-! ## C8 -/

/-- C8: in every handler table, a worker that takes a command emits one Result and its id is
the command's id, whatever handler is found or missing; so processing any list of commands
emits as many Results as commands, with the commands' ids in order. -/
theorem worker_echoes_ids (input : List (Env × command)) (handlers : PkgMap) :
    (∀ (env : Env) (c : command), (worker.step env handlers c).1.ID = c.ID) ∧
    (worker input handlers).1.length = input.length ∧
    (worker input handlers).1.map result.ID = input.map (fun p => p.2.ID) := by
  refine ⟨fun env c => worker_step_id env handlers c, ?_, ?_⟩
  · induction input generalizing handlers with
    | nil => rfl
    | cons p input ih =>
      obtain ⟨env, c⟩ := p
      simp [worker, ih]
  · induction input generalizing handlers with
    | nil => rfl
    | cons p input ih =>
      obtain ⟨env, c⟩ := p
      simp [worker, ih, worker_step_id]

/-! ## C9 -/

/-- C9: for every storage type `v` other than "sds" and "indexedDB", `createStore` returns the
error "V is not a valid storage type. Valid storage types: sds, indexedDB"; and a start
command whose options parse with that storage type and whose log level is accepted gets an
error Result with the command's id whose message contains that text, the table unchanged. -/
theorem invalid_storage_type (env : Env) (opts : agentStartOpts)
    (hsds : opts.StorageType ≠ "sds") (hidb : opts.StorageType ≠ "indexedDB") :
    createStore env opts = Except.error (invalidStorageTypeText opts.StorageType) ∧
    (∀ (pkgMap : PkgMap) (c : command), startOpts env c.Payload = Except.ok opts →
      setLogLevel env opts.LogLevel = none →
      addAgentHandlers.start env pkgMap c =
        (newErrResult c.ID
          ("failed to create storage provider: " ++ invalidStorageTypeText opts.StorageType),
         pkgMap) ∧
      (addAgentHandlers.start env pkgMap c).1.IsErr = true ∧
      (addAgentHandlers.start env pkgMap c).1.ID = c.ID ∧
      ∃ before after, (addAgentHandlers.start env pkgMap c).1.ErrMsg =
        before ++ invalidStorageTypeText opts.StorageType ++ after) := by
  have hstore : createStore env opts =
      Except.error (invalidStorageTypeText opts.StorageType) := by
    unfold createStore storageTypeSDS storageTypeIndexedDB
    rw [if_neg hsds, if_neg hidb]
    rfl
  refine ⟨hstore, ?_⟩
  intro pkgMap c hopts hlog
  have hstart : addAgentHandlers.start env pkgMap c =
      (newErrResult c.ID
        ("failed to create storage provider: " ++ invalidStorageTypeText opts.StorageType),
       pkgMap) := by
    simp [addAgentHandlers.start, hopts, hlog, agentOpts, hstore]
  refine ⟨hstart, by rw [hstart]; rfl, by rw [hstart]; rfl, ?_⟩
  refine ⟨"agent wasm: failed to create storage provider: ", "", ?_⟩
  have hlit : "agent wasm: " ++ "failed to create storage provider: " =
      "agent wasm: failed to create storage provider: " := by decide
  rw [hstart]
  simp only [newErrResult, String.append_empty]
  rw [← String.append_assoc, hlit]

/-- C9 at the storage type "foo" and a start command of id "4". -/
theorem invalid_storage_type_witness :
    createStore (sampleEnv { StorageType := "foo" } [] none) { StorageType := "foo" } =
      Except.error "foo is not a valid storage type. Valid storage types: sds, indexedDB" ∧
    addAgentHandlers.start (sampleEnv { StorageType := "foo" } [] none) pipe
        ⟨"4", "agent", "Start", none⟩ =
      (newErrResult "4"
        ("failed to create storage provider: " ++ invalidStorageTypeText "foo"), pipe) ∧
    (addAgentHandlers.start (sampleEnv { StorageType := "foo" } [] none) pipe
        ⟨"4", "agent", "Start", none⟩).1.IsErr = true ∧
    (addAgentHandlers.start (sampleEnv { StorageType := "foo" } [] none) pipe
        ⟨"4", "agent", "Start", none⟩).1.ID = "4" ∧
    ∃ before after,
      (addAgentHandlers.start (sampleEnv { StorageType := "foo" } [] none) pipe
        ⟨"4", "agent", "Start", none⟩).1.ErrMsg =
        before ++ invalidStorageTypeText "foo" ++ after :=
  ⟨(invalid_storage_type (sampleEnv { StorageType := "foo" } [] none) { StorageType := "foo" }
      (by decide) (by decide)).1,
   (invalid_storage_type (sampleEnv { StorageType := "foo" } [] none) { StorageType := "foo" }
      (by decide) (by decide)).2 pipe ⟨"4", "agent", "Start", none⟩ rfl rfl⟩


/-! ## C10 -/

/-- C10, as stated, fails: `agentOpts` creates the store before it calls `createVDRs`, so with
the storage type "foo" and the resolver list holding only "noseparator" it returns the
storage error, not the resolver error of `createVDRs`. -/
theorem agentOpts_reports_storage_error_first :
    ¬ (∀ (env : Env) (opts : agentStartOpts),
        (∀ entry ∈ opts.HTTPResolvers, wellFormedResolver entry →
          ∀ methods, env.httpbindingNew (resolverURL entry) methods = none) →
        ∀ entry, firstMalformed opts.HTTPResolvers = some entry →
          createVDRs env opts.HTTPResolvers opts.BlocDomain opts.TrustblocResolver =
            Except.error ("invalid http resolver options found: " ++ entry) ∧
          agentOpts env opts =
            Except.error ("invalid http resolver options found: " ++ entry)) := by
  intro h
  have h1 := (h (sampleEnv badStorageAndResolverOpts [] none) badStorageAndResolverOpts
    (fun _ _ _ _ => rfl) "noseparator" (by decide)).2
  have h2 : agentOpts (sampleEnv badStorageAndResolverOpts [] none) badStorageAndResolverOpts =
      Except.error ("failed to create storage provider: " ++
        "foo is not a valid storage type. Valid storage types: sds, indexedDB") := rfl
  rw [h2] at h1
  injection h1 with h3
  exact absurd h3 (by decide)

/-- C10, amended: for every list of resolver specs, if the resolver of each well-formed entry
can be constructed, `createVDRs` returns an error exactly when some entry does not split into
two parts on "@"; the error is "invalid http resolver options found: ENTRY" for the first such
entry, an entry without "@" is such an entry, `agentOpts` returns that same error whenever the
store it creates first is created, and a start command with these options gets an error
Result with the table unchanged whether or not the store is created. -/
theorem malformed_resolver_fails_start (env : Env) (opts : agentStartOpts)
    (hnew : ∀ entry ∈ opts.HTTPResolvers, wellFormedResolver entry →
      ∀ methods, env.httpbindingNew (resolverURL entry) methods = none) :
    ((∃ err, createVDRs env opts.HTTPResolvers opts.BlocDomain opts.TrustblocResolver =
        Except.error err) ↔
      ∃ entry ∈ opts.HTTPResolvers, ¬ wellFormedResolver entry) ∧
    (∀ entry, firstMalformed opts.HTTPResolvers = some entry →
      createVDRs env opts.HTTPResolvers opts.BlocDomain opts.TrustblocResolver =
        Except.error ("invalid http resolver options found: " ++ entry) ∧
      (∀ store, createStore env opts = Except.ok store →
        agentOpts env opts =
          Except.error ("invalid http resolver options found: " ++ entry)) ∧
      (∀ (pkgMap : PkgMap) (c : command), startOpts env c.Payload = Except.ok opts →
        ∃ err, addAgentHandlers.start env pkgMap c = (newErrResult c.ID err, pkgMap))) ∧
    (∀ entry ∈ opts.HTTPResolvers, '@' ∉ entry.data → ¬ wellFormedResolver entry) := by
  have herr : ∀ entry, firstMalformed opts.HTTPResolvers = some entry →
      createVDRs env opts.HTTPResolvers opts.BlocDomain opts.TrustblocResolver =
        Except.error ("invalid http resolver options found: " ++ entry) := by
    intro entry hfirst
    simp only [createVDRs, collect_malformed _ entry hfirst]
  refine ⟨⟨?_, ?_⟩, ?_, fun entry _ h => not_wellFormed_of_no_at entry h⟩
  · rintro ⟨err, he⟩
    by_contra hno
    push_neg at hno
    obtain ⟨set2, order2, hcol, hkeys⟩ := collect_wellFormed opts.HTTPResolvers hno [] [] (-1)
    have hset : ∀ url ∈ (env.rangeOrder set2).val.map Prod.fst, ∀ methods,
        env.httpbindingNew url methods = none := by
      intro url hurl methods
      have hurl2 : url ∈ set2.map Prod.fst :=
        ((env.rangeOrder set2).property.map Prod.fst).mem_iff.mp hurl
      rcases hkeys url hurl2 with h | ⟨entry, hmem, hu⟩
      · simp at h
      · rw [hu]
        exact hnew entry hmem (hno entry hmem) methods
    obtain ⟨built, hb⟩ :=
      build_succeeds env order2 (env.rangeOrder set2).val hset
        (List.replicate set2.length none)
    simp [createVDRs, hcol, hb] at he
  · rintro ⟨entry, hmem, hbad⟩
    cases hf : firstMalformed opts.HTTPResolvers with
    | none => exact absurd ((firstMalformed_eq_none _).mp hf entry hmem) hbad
    | some first => exact ⟨_, herr first hf⟩
  · intro entry hfirst
    have hagent : ∀ store, createStore env opts = Except.ok store →
        agentOpts env opts =
          Except.error ("invalid http resolver options found: " ++ entry) := by
      intro store hstore
      simp [agentOpts, hstore, herr entry hfirst]
    refine ⟨herr entry hfirst, hagent, ?_⟩
    intro pkgMap c hopts
    cases hlog : setLogLevel env opts.LogLevel with
    | some e => exact ⟨e, by simp [addAgentHandlers.start, hopts, hlog]⟩
    | none =>
      cases hstore : createStore env opts with
      | error e =>
        exact ⟨"failed to create storage provider: " ++ e,
          by simp [addAgentHandlers.start, hopts, hlog, agentOpts, hstore]⟩
      | ok store =>
        exact ⟨"invalid http resolver options found: " ++ entry,
          by simp [addAgentHandlers.start, hopts, hlog, hagent store hstore]⟩

/-- C10 at the resolver list of `badResolverOpts` and a start command of id "5". -/
theorem malformed_resolver_fails_start_witness :
    createVDRs (sampleEnv badResolverOpts [] none) ["v1@http://resolver.com", "noseparator"]
        "" "" =
      Except.error ("invalid http resolver options found: " ++ "noseparator") ∧
    agentOpts (sampleEnv badResolverOpts [] none) badResolverOpts =
      Except.error ("invalid http resolver options found: " ++ "noseparator") ∧
    ∃ err, addAgentHandlers.start (sampleEnv badResolverOpts [] none) pipe
      ⟨"5", "agent", "Start", none⟩ = (newErrResult "5" err, pipe) :=
  have h := (malformed_resolver_fails_start (sampleEnv badResolverOpts [] none) badResolverOpts
    (fun _ _ _ _ => rfl)).2.1 "noseparator" (by decide)
  ⟨h.1, h.2.1 (StorageProvider.indexedDB "") rfl, h.2.2 pipe ⟨"5", "agent", "Start", none⟩ rfl⟩


/-! ## C12 -/

/-- C12 at the well-formed list v1@http://a.com, v2@http://b.com, v3@http://a.com, which has
two distinct URLs: the first loop of `createVDRs` groups the methods by URL but leaves both
URLs with index 1 in `order`, the index of http://a.com being overwritten when it is listed
again; so the returned list has length 3 with a nil slot 0, slot 1 holds the resolver of the
URL the second loop visits last (http://b.com in the order of insertion, http://a.com in the
other order), and the trustbloc VDR is at index 2, in whatever order the map range visits the
two URLs. -/
theorem createVDRs_repeated_url_leaves_nil_slot :
    createVDRs.collect repeatedURLResolvers [] [] (-1) =
      Except.ok
        ([("http://a.com", [("v1", ()), ("v3", ())]), ("http://b.com", [("v2", ())])],
         [("http://a.com", 1), ("http://b.com", 1)]) ∧
    createVDRs (sampleEnv minimalOpts [] none) repeatedURLResolvers "d" "r" =
      Except.ok
        [none, some (VDR.httpbinding "http://b.com" [("v2", ())]),
         some (VDR.trustbloc "d" "r")] ∧
    createVDRs.build (sampleEnv minimalOpts [] none)
        [("http://a.com", 1), ("http://b.com", 1)]
        [("http://b.com", [("v2", ())]), ("http://a.com", [("v1", ()), ("v3", ())])]
        (List.replicate 2 none) =
      Except.ok [none, some (VDR.httpbinding "http://a.com" [("v1", ()), ("v3", ())])] ∧
    (∀ env : Env, (∀ url methods, env.httpbindingNew url methods = none) →
      ∃ last, createVDRs env repeatedURLResolvers "d" "r" =
        Except.ok [none, some last, some (VDR.trustbloc "d" "r")]) := by
  refine ⟨rfl, rfl, rfl, ?_⟩
  intro env hnew
  have hcol : createVDRs.collect repeatedURLResolvers [] [] (-1) =
      Except.ok
        ([("http://a.com", [("v1", ()), ("v3", ())]), ("http://b.com", [("v2", ())])],
         [("http://a.com", 1), ("http://b.com", 1)]) := rfl
  rcases perm_pair _ _ _
    (env.rangeOrder
      [("http://a.com", [("v1", ()), ("v3", ())]), ("http://b.com", [("v2", ())])]).property
    with hv | hv
  · refine ⟨VDR.httpbinding "http://b.com" [("v2", ())], ?_⟩
    simp only [createVDRs, hcol, hv, createVDRs.build, hnew]
    rfl
  · refine ⟨VDR.httpbinding "http://a.com" [("v1", ()), ("v3", ())], ?_⟩
    simp only [createVDRs, hcol, hv, createVDRs.build, hnew]
    rfl

end AgentJsWorker
